import Mathlib

/-!
Verification of the refconverter conversion core.

The development shallowly embeds the conversion engine of the repository:

* `XMLConverter` (source file src/unnamed/part_007): record location over
  pattern lists, citation-key generation with an index suffix, LaTeX escaping
  by sequential character replacement, the journal/publisher string-definition
  registry, field formatting and the orchestration loop with progress-callback
  cancellation.
* `ConversionEngine` (src/src/converter/ConversionEngine.ts): the
  title/author rejection gate, entry-type derivation and citation-key
  generation without an index suffix, and single-pass LaTeX escaping.
* `ExternalAPIManager` (src/src/converter/externalApiManager.js): fuzzy
  best-match selection with a strict 0.7 threshold over a blended
  Jaccard-similarity score, and the conservative enhancement merge.

Embedding conventions: DOM traversal (querySelectorAll and text extraction)
is abstracted away by modelling a located record as the structure of the
texts each extractor resolves for it; every function downstream of text
extraction is translated statement by statement from the source.  JavaScript
strings are Lean strings; all string operations are re-implemented on
`List Char` by structural recursion so that concrete runs reduce inside the
kernel.  JavaScript numbers appearing in the match scorer are embedded as
exact rationals; the scorer manipulates only small decimal fractions, and the
properties verified are about the shape of the comparisons, not about binary
rounding.
-/

namespace RefConv

/-! ## String primitives (JavaScript-flavoured, structural) -/

/-- Lower-case a string character by character (JS toLowerCase on ASCII). -/
def lowerS (s : String) : String := String.mk (s.data.map Char.toLower)

/-- Whitespace trim from both ends (JS String.prototype.trim). -/
def wsTrim (s : String) : String :=
  String.mk (((s.data.dropWhile Char.isWhitespace).reverse.dropWhile Char.isWhitespace).reverse)

/-- Does the second list start with the first one? -/
def prefixOf : List Char → List Char → Bool
  | [], _ => true
  | _ :: _, [] => false
  | c :: cs, d :: ds => c == d && prefixOf cs ds

/-- Does the list contain the pattern as a contiguous run? -/
def hasSub (pat : List Char) : List Char → Bool
  | [] => prefixOf pat []
  | c :: r => prefixOf pat (c :: r) || hasSub pat r

/-- JS String.prototype.includes. -/
def jsIncludes (s pat : String) : Bool := hasSub pat.data s.data

/-- Characters before the first occurrence of the pattern; the whole list when
the pattern does not occur.  This is JS split(sep)[0] for a non-empty sep. -/
def beforeFirst (pat : List Char) : List Char → List Char
  | [] => []
  | c :: r => if prefixOf pat (c :: r) then [] else c :: beforeFirst pat r

/-- Accumulating splitter for maximal non-whitespace runs. -/
def wsTokensGo : List Char → List Char → List (List Char)
  | curRev, [] => if curRev.isEmpty then [] else [curRev.reverse]
  | curRev, c :: r =>
    if c.isWhitespace then
      if curRev.isEmpty then wsTokensGo [] r else curRev.reverse :: wsTokensGo [] r
    else wsTokensGo (c :: curRev) r

/-- Maximal non-whitespace runs of a character list. -/
def wsTokens (l : List Char) : List (List Char) := wsTokensGo [] l

/-- JS String.prototype.split with a whitespace-run regex: maximal whitespace
runs separate tokens, a leading or trailing run contributes an empty token,
and the empty string yields a single empty token. -/
def jsSplitWs (s : String) : List String :=
  if s.data.isEmpty then [""]
  else
    let lead := match s.data.head? with | some c => c.isWhitespace | none => false
    let trail := match s.data.getLast? with | some c => c.isWhitespace | none => false
    (if lead then [""] else []) ++ (wsTokens s.data).map String.mk ++
      (if trail then [""] else [])

/-- Replace every occurrence of a single character by a replacement string
(JS String.prototype.replace with a global single-character regex; the
replacement text is not rescanned). -/
def replaceCharList (c : Char) (rep : List Char) : List Char → List Char
  | [] => []
  | d :: r => if d == c then rep ++ replaceCharList c rep r else d :: replaceCharList c rep r

/-- String wrapper of `replaceCharList`. -/
def replaceChar (s : String) (c : Char) (rep : String) : String :=
  String.mk (replaceCharList c rep.data s.data)

/-! ## Decimal rendering of a number (JS template literal) -/

/-- The ten decimal digit characters. -/
def decDigits : List Char := ['0', '1', '2', '3', '4', '5', '6', '7', '8', '9']

/-- Character of one decimal digit. -/
def decDigit (d : Nat) : Char := decDigits.getD d '0'

/-- Fuelled digit accumulator; the fuel is only there to make the recursion
structural so that concrete runs reduce in the kernel. -/
def natToDecGo : Nat → Nat → List Char → List Char
  | 0, _, acc => acc
  | fuel + 1, n, acc =>
    let d := decDigit (n % 10)
    let m := n / 10
    if m = 0 then d :: acc else natToDecGo fuel m (d :: acc)

/-- Decimal rendering of a natural number, as a JS template literal prints it. -/
def natToDec (n : Nat) : String := String.mk (natToDecGo (n + 1) n [])

/-- Reference digit list of a natural number, most significant digit first. -/
def natDecSpec (n : Nat) : List Char :=
  if n = 0 then ['0'] else ((Nat.digits 10 n).map decDigit).reverse

theorem natToDecGo_spec : ∀ (fuel n : Nat), n < fuel → ∀ acc,
    natToDecGo fuel n acc = natDecSpec n ++ acc := by
  intro fuel
  induction fuel with
  | zero => intro n h; omega
  | succ f ih =>
    intro n h acc
    show (if n / 10 = 0 then decDigit (n % 10) :: acc
          else natToDecGo f (n / 10) (decDigit (n % 10) :: acc)) = natDecSpec n ++ acc
    by_cases hm : n / 10 = 0
    · simp only [hm, if_pos]
      by_cases h0 : n = 0
      · subst h0
        simp [natDecSpec, decDigit, decDigits]
      · have hpos : 0 < n := Nat.pos_of_ne_zero h0
        have hdig : Nat.digits 10 n = [n % 10] := by
          rw [Nat.digits_def' (by norm_num : (1:ℕ) < 10) hpos, hm]
          simp
        simp [natDecSpec, h0, hdig]
    · have hn0 : 0 < n := by
        rcases Nat.eq_zero_or_pos n with h0 | h0
        · subst h0; simp at hm
        · exact h0
      have hlt : n / 10 < f := by
        have := Nat.div_lt_self hn0 (by norm_num : (1:ℕ) < 10)
        omega
      simp only [hm, if_neg, ih (n / 10) hlt]
      have hdig : Nat.digits 10 n = n % 10 :: Nat.digits 10 (n / 10) :=
        Nat.digits_def' (by norm_num : (1:ℕ) < 10) hn0
      simp [natDecSpec, show n ≠ 0 by omega, hm, hdig]

theorem natToDec_data (n : Nat) : (natToDec n).data = natDecSpec n := by
  show (String.mk (natToDecGo (n + 1) n [])).data = natDecSpec n
  rw [natToDecGo_spec (n + 1) n (Nat.lt_succ_self n) []]
  simp

theorem decDigit_mem (d : Nat) (h : d < 10) : decDigit d ∈ decDigits := by
  interval_cases d <;> decide

theorem decDigit_inj (d e : Nat) (hd : d < 10) (he : e < 10)
    (h : decDigit d = decDigit e) : d = e := by
  interval_cases d <;> interval_cases e <;> simp_all [decDigit, decDigits]

theorem natDecSpec_digits (n : Nat) : ∀ c ∈ natDecSpec n, c ∈ decDigits := by
  intro c hc
  by_cases h0 : n = 0
  · subst h0; simp [natDecSpec] at hc; subst hc; decide
  · simp [natDecSpec, h0] at hc
    obtain ⟨d, hd, hdc⟩ := hc
    subst hdc
    exact decDigit_mem d (Nat.digits_lt_base (by norm_num) hd)

theorem natDecSpec_ne_nil (n : Nat) : natDecSpec n ≠ [] := by
  by_cases h0 : n = 0
  · subst h0; simp [natDecSpec]
  · simp [natDecSpec, h0, Nat.digits_ne_nil_iff_ne_zero, h0]

theorem map_decDigit_inj : ∀ (l1 l2 : List Nat), (∀ d ∈ l1, d < 10) → (∀ d ∈ l2, d < 10) →
    l1.map decDigit = l2.map decDigit → l1 = l2 := by
  intro l1
  induction l1 with
  | nil => intro l2 _ _ h; cases l2 <;> simp_all
  | cons d r ih =>
    intro l2 h1 h2 h
    cases l2 with
    | nil => simp at h
    | cons e s =>
      simp only [List.map_cons, List.cons.injEq] at h
      have hde : d = e :=
        decDigit_inj d e (h1 d (by simp)) (h2 e (by simp)) h.1
      have hrs : r = s :=
        ih s (fun x hx => h1 x (by simp [hx])) (fun x hx => h2 x (by simp [hx])) h.2
      rw [hde, hrs]

theorem digits_eq_zero_digit_absurd (n : Nat) (hn : n ≠ 0)
    (h : Nat.digits 10 n = [0]) : False := by
  have := Nat.ofDigits_digits 10 n
  rw [h] at this
  simp [Nat.ofDigits] at this
  omega

theorem natDecSpec_inj (m n : Nat) (h : natDecSpec m = natDecSpec n) : m = n := by
  by_cases hm : m = 0 <;> by_cases hn : n = 0
  · omega
  · exfalso
    subst hm
    simp only [natDecSpec, if_pos rfl, if_neg hn] at h
    have hmap : (Nat.digits 10 n).map decDigit = ['0'] := by
      have := congrArg List.reverse h
      simpa using this.symm
    have hdig : Nat.digits 10 n = [0] := by
      have h10 : ([0] : List Nat).map decDigit = ['0'] := by decide
      exact map_decDigit_inj _ [0]
        (fun d hd => Nat.digits_lt_base (by norm_num) hd)
        (by intro d hd; simp at hd; omega) (hmap.trans h10.symm)
    exact digits_eq_zero_digit_absurd n hn hdig
  · exfalso
    subst hn
    simp only [natDecSpec, if_pos rfl, if_neg hm] at h
    have hmap : (Nat.digits 10 m).map decDigit = ['0'] := by
      have := congrArg List.reverse h
      simpa using this
    have hdig : Nat.digits 10 m = [0] := by
      have h10 : ([0] : List Nat).map decDigit = ['0'] := by decide
      exact map_decDigit_inj _ [0]
        (fun d hd => Nat.digits_lt_base (by norm_num) hd)
        (by intro d hd; simp at hd; omega) (hmap.trans h10.symm)
    exact digits_eq_zero_digit_absurd m hm hdig
  · simp only [natDecSpec, if_neg hm, if_neg hn] at h
    have hmap : (Nat.digits 10 m).map decDigit = (Nat.digits 10 n).map decDigit := by
      have := congrArg List.reverse h
      simpa using this
    have hdig : Nat.digits 10 m = Nat.digits 10 n :=
      map_decDigit_inj _ _
        (fun d hd => Nat.digits_lt_base (by norm_num) hd)
        (fun d hd => Nat.digits_lt_base (by norm_num) hd) hmap
    have := Nat.ofDigits_digits 10 m
    rw [hdig, Nat.ofDigits_digits] at this
    omega

theorem natToDec_inj (m n : Nat) (h : natToDec m = natToDec n) : m = n := by
  apply natDecSpec_inj
  rw [← natToDec_data, ← natToDec_data, h]

/-! ## ConversionEngine (src/src/converter/ConversionEngine.ts)

A located reference element is modelled as the structure of the texts the
private extractors resolve for it: extractText over the selector alias lists,
extractAuthors and extractYear are abstracted as field projections, since the
claims under verification start downstream of DOM text extraction. -/

/-- One reference-like element, as ConversionEngine sees it after text
extraction: each field holds the resolved text, the empty string when the
element resolves nothing. -/
structure CERecord where
  typeField : String
  title : String
  author : String
  year : String
  journal : String
  booktitle : String
  publisher : String
  deriving DecidableEq, Inhabited

/-- ConversionEngine.determineBibTeXType: lower-cased substring match on the
explicit type field first, then the journal/booktitle/publisher heuristic. -/
def determineBibTeXType (r : CERecord) : String :=
  let explicitMatch : Option String :=
    if r.typeField ≠ "" then
      let t := lowerS r.typeField
      if jsIncludes t "article" || jsIncludes t "journal" then some "article"
      else if jsIncludes t "book" then some "book"
      else if jsIncludes t "chapter" || jsIncludes t "inbook" then some "inbook"
      else if jsIncludes t "conference" || jsIncludes t "proceeding" then some "inproceedings"
      else if jsIncludes t "thesis" || jsIncludes t "dissertation" then some "phdthesis"
      else if jsIncludes t "report" || jsIncludes t "tech" then some "techreport"
      else if jsIncludes t "manual" then some "manual"
      else if jsIncludes t "web" || jsIncludes t "online" then some "misc"
      else none
    else none
  match explicitMatch with
  | some ty => ty
  | none =>
    if r.journal ≠ "" then "article"
    else if r.booktitle ≠ "" then "inproceedings"
    else if r.publisher ≠ "" then "book"
    else "misc"

/-- Stop-word test of ConversionEngine.generateBibTeXKey
(the|and|or|of|in|on|at|to|for|with|by, case-insensitive full match). -/
def ceStopWord (w : String) : Bool :=
  ["the", "and", "or", "of", "in", "on", "at", "to", "for", "with", "by"].contains (lowerS w)

/-- Keep only lower-case ASCII letters (JS replace of the class complement). -/
def keepLowerAlpha (s : String) : String := String.mk (s.data.filter Char.isLower)

/-- ConversionEngine.generateBibTeXKey: first-author surname lower-cased,
year, then a six-character fragment of the first significant title word when
the key is still short; reference-number fallback below three characters. -/
def generateBibTeXKey (r : CERecord) (refNumber : Nat) : String :=
  let key1 : String :=
    if r.author ≠ "" then
      let firstAuthor := wsTrim (String.mk (beforeFirst " and ".data r.author.data))
      let nameParts := jsSplitWs firstAuthor
      keepLowerAlpha (lowerS (nameParts.getLastD ""))
    else ""
  let key2 : String := if r.year ≠ "" then key1 ++ r.year else key1
  let key3 : String :=
    if r.title ≠ "" ∧ key2.length < 10 then
      let titleWords := (jsSplitWs r.title).filter fun w => w.length > 3 && !ceStopWord w
      match titleWords with
      | [] => key2
      | w :: _ => key2 ++ String.mk ((keepLowerAlpha (lowerS w)).data.take 6)
    else key2
  if key3.length < 3 then "ref" ++ natToDec refNumber else key3

/-- The reference object ConversionEngine.parseReference assembles (fields
not involved in any verified claim are elided). -/
structure CEReference where
  id : String
  type : String
  title : String
  author : String
  year : String
  journal : String
  publisher : String
  deriving DecidableEq, Inhabited

/-- ConversionEngine.parseReference: build the reference, then reject it when
title and author are both missing. -/
def parseReference (r : CERecord) (refNumber : Nat) : Option CEReference :=
  let reference : CEReference :=
    { id := generateBibTeXKey r refNumber
      type := determineBibTeXType r
      title := r.title
      author := r.author
      year := r.year
      journal := r.journal
      publisher := r.publisher }
  if reference.title = "" ∧ reference.author = "" then none else some reference

/-- ConversionEngine.extractReferences, processing stage: parse each located
entry with its one-based ordinal, keeping the successful ones. -/
def extractReferences (entries : List CERecord) : List CEReference :=
  entries.enum.filterMap fun p => parseReference p.2 (p.1 + 1)

/-- ConversionEngine.extractReferences, location stage: the primary selector
list first, the attribute fallback second, one warning when both are empty.
The document is abstracted as the match list each selector group returns. -/
def ceLocate (q : String → List CERecord) : List CERecord × List String :=
  let entries := q "record, reference, citation, item"
  if entries.length > 0 then (entries, [])
  else
    let entries2 := q "*[title], *[author], *[journal]"
    if entries2.length > 0 then (entries2, [])
    else ([], ["No recognizable reference entries found in XML"])

/-- Escape of one character in ConversionEngine.escapeLatexCharacters:
characters of the regex class map through escapeMap, all others stay. -/
def ceEscChar (c : Char) : String :=
  match c with
  | '&' => "\\&"
  | '%' => "\\%"
  | '$' => "\\$"
  | '#' => "\\#"
  | '_' => "\\_"
  | '{' => "\\\x7b"
  | '}' => "\\\x7d"
  | '~' => "\\textasciitilde\x7b\x7d"
  | '^' => "\\textasciicircum\x7b\x7d"
  | '\\' => "\\textbackslash\x7b\x7d"
  | c => String.mk [c]

/-- ConversionEngine.escapeLatexCharacters: one simultaneous pass replacing
each special character through the escape map. -/
def escapeLatexCharacters (text : String) : String :=
  String.join (text.data.map ceEscChar)

/-! ## XMLConverter (src/unnamed/part_007)

A located record is modelled as the structure of the texts the extract
methods resolve for it (extractTitle, extractAuthors, extractYear, ...);
`journalNames` and `publisherNames` hold every journal-like and
publisher-like text the pre-pass collectJournalAndPublisherInfo finds in the
record subtree. -/

/-- One located XML record, as XMLConverter sees it after text extraction. -/
structure XRecord where
  refType : String
  title : String
  authors : List String
  year : String
  journal : String
  publisher : String
  volume : String
  number : String
  pages : String
  doi : String
  url : String
  abstract : String
  keywords : String
  booktitle : String
  chapter : String
  edition : String
  series : String
  address : String
  organization : String
  institution : String
  school : String
  note : String
  journalNames : List String
  publisherNames : List String
  deriving DecidableEq, Inhabited

/-- The configuration object of the XMLConverter constructor. -/
structure XConfig where
  suppressWarnings : Bool
  extractStyledText : Bool
  useAcmStyle : Bool
  useStringDefinitions : Bool
  useBiblatexFields : Bool
  escapeLatexChars : Bool
  debugMode : Bool
  enableApiEnhancement : Bool
  deriving DecidableEq, Inhabited

/-- XMLConverter.entryTypeMap, in insertion order. -/
def entryTypeMap : List (String × String) :=
  [("Journal Article", "article"),
   ("Book", "book"),
   ("Book Section", "incollection"),
   ("Conference Paper", "inproceedings"),
   ("Conference Proceedings", "proceedings"),
   ("Conference Proceeding", "proceedings"),
   ("Thesis", "phdthesis"),
   ("Report", "techreport"),
   ("Web Page", "online"),
   ("Patent", "patent"),
   ("Unpublished Work", "unpublished"),
   ("Manuscript", "unpublished"),
   ("Magazine Article", "article"),
   ("Newspaper Article", "article"),
   ("Electronic Article", "article"),
   ("Generic", "misc")]

/-- Lookup of the BibTeX entry type: this.entryTypeMap[refType] with misc
as the fallback. -/
def lookupEntryType (refType : String) : String :=
  (entryTypeMap.lookup refType).getD "misc"

/-- XMLConverter.latexSpecialChars, in insertion order: single characters
paired with their replacement text. -/
def latexSpecialChars : List (Char × String) :=
  [('&', "\\&"),
   ('%', "\\%"),
   ('$', "\\$"),
   ('#', "\\#"),
   ('_', "\\_"),
   ('{', "\\\x7b"),
   ('}', "\\\x7d"),
   ('~', "\\textasciitilde\x7b\x7d"),
   ('^', "\\textasciicircum\x7b\x7d"),
   ('\\', "\\textbackslash\x7b\x7d"),
   ('<', "\\textless\x7b\x7d"),
   ('>', "\\textgreater\x7b\x7d")]

/-- XMLConverter.escapeLatex: sequential global replacement, one special
character after the other, in map insertion order. -/
def escapeLatex (escapeLatexChars : Bool) (text : String) : String :=
  if !escapeLatexChars || text = "" then text
  else latexSpecialChars.foldl (fun t p => replaceChar t p.1 p.2) text

/-- Stop-word test of XMLConverter.generateCitationKey
(the|and|of|in|on|at|to|for|with|by, case-insensitive full match). -/
def xStopWord (w : String) : Bool :=
  ["the", "and", "of", "in", "on", "at", "to", "for", "with", "by"].contains (lowerS w)

/-- Keep ASCII letters only (JS replace of [^a-zA-Z]). -/
def keepAlpha (s : String) : String := String.mk (s.data.filter Char.isAlpha)

/-- Keep letters, digits and underscore (JS replace of [^a-zA-Z0-9_]). -/
def sanitizeKey (s : String) : String :=
  String.mk (s.data.filter fun c => c.isAlphanum || c == '_')

/-- JS word.charAt(0).toUpperCase() + word.slice(1).toLowerCase(). -/
def capFirst (w : String) : String :=
  match w.data with
  | [] => ""
  | c :: cs => String.mk (c.toUpper :: cs.map Char.toLower)

/-- Citation key of XMLConverter.generateCitationKey before the index
suffix: first-author surname, year (0000 fallback), then up to two
capitalized significant title words. -/
def xKeyBase (r : XRecord) : String :=
  let firstAuthor := r.authors.headD "Unknown"
  let authorParts := jsSplitWs firstAuthor
  let lastName := keepAlpha (authorParts.getLastD "")
  let year := if r.year ≠ "" then r.year else "0000"
  let titleWords :=
    if r.title ≠ "" then
      ((jsSplitWs r.title).filter fun w => w.length > 3 && !xStopWord w).take 2
    else []
  let citationKey := lastName ++ year
  if titleWords.length > 0 then citationKey ++ String.join (titleWords.map capFirst)
  else citationKey

/-- XMLConverter.generateCitationKey: the base key, an underscore-index
suffix for every record index above zero, then the character sanitizer. -/
def generateCitationKey (r : XRecord) (index : Nat) : String :=
  sanitizeKey (xKeyBase r ++ (if index > 0 then "_" ++ natToDec index else ""))

/-- XMLConverter.extractFields: the field map in insertion order; the author
key is only set when the author list is non-empty. -/
def extractFields (r : XRecord) : List (String × String) :=
  [("title", r.title)] ++
  (if r.authors.length > 0 then [("author", String.intercalate " and " r.authors)] else []) ++
  [("year", r.year),
   ("journal", r.journal),
   ("publisher", r.publisher),
   ("volume", r.volume),
   ("number", r.number),
   ("pages", r.pages),
   ("doi", r.doi),
   ("url", r.url),
   ("abstract", r.abstract),
   ("keywords", r.keywords),
   ("booktitle", r.booktitle),
   ("chapter", r.chapter),
   ("edition", r.edition),
   ("series", r.series),
   ("address", r.address),
   ("organization", r.organization),
   ("institution", r.institution),
   ("school", r.school),
   ("note", r.note)]

/-! Page-range normalization: the JS replace of the first
digits-dash-digits run (any dash variant, optional surrounding whitespace)
by a double hyphen. -/

/-- Try to match digits, optional whitespace, a dash variant, optional
whitespace, digits at the head of the list; on success return the
double-hyphen replacement and the rest. -/
def tryRange (l : List Char) : Option (List Char × List Char) :=
  let d1 := l.takeWhile Char.isDigit
  let r1 := l.dropWhile Char.isDigit
  if d1.isEmpty then none
  else
    let r2 := r1.dropWhile Char.isWhitespace
    match r2 with
    | c :: r3 =>
      if c == '-' || c == '–' || c == '—' then
        let r4 := r3.dropWhile Char.isWhitespace
        let d2 := r4.takeWhile Char.isDigit
        let r5 := r4.dropWhile Char.isDigit
        if d2.isEmpty then none else some (d1 ++ ['-', '-'] ++ d2, r5)
      else none
    | [] => none

/-- Replace the first digits-dash-digits run (JS replace without the global
flag): scan left to right, substitute once, keep the remainder unchanged. -/
def pagesNormList : List Char → List Char
  | [] => []
  | c :: r =>
    match tryRange (c :: r) with
    | some (rep, rest) => rep ++ rest
    | none => c :: pagesNormList r

/-- String wrapper of `pagesNormList`. -/
def pagesNorm (s : String) : String := String.mk (pagesNormList s.data)

/-- XMLConverter.formatFieldValue: trim, page-range normalization for the
pages field, brace protection for the title field. -/
def formatFieldValue (value : String) (fieldName : String) : String :=
  if value = "" then ""
  else
    let value := wsTrim value
    if fieldName = "pages" then pagesNorm value
    else if fieldName = "title" then
      -- JS startsWith and endsWith on the single brace characters
      if !(value.data.head? == some '\x7b') && !(value.data.getLast? == some '\x7d') then
        "\x7b" ++ value ++ "\x7d"
      else value
    else value

/-- One interned journal entry of the registry. -/
structure JEntry where
  fullName : String
  abbreviated : String
  category : String
  deriving DecidableEq, Inhabited

/-- One interned publisher entry of the registry. -/
structure PEntry where
  name : String
  category : String
  deriving DecidableEq, Inhabited

/-- The mutable registries of one conversion run, as association lists with
JS object semantics: an existing key is updated in place, a new key is
appended. -/
structure XState where
  journals : List (String × JEntry)
  publishers : List (String × PEntry)
  journalNameToKey : List (String × String)
  deriving DecidableEq, Inhabited

/-- The reset registries at the start of a run. -/
def xStateEmpty : XState := { journals := [], publishers := [], journalNameToKey := [] }

/-- JS object write: update an existing key in place, append a new one. -/
def jsSet {α : Type} (l : List (String × α)) (k : String) (v : α) : List (String × α) :=
  if (l.lookup k).isSome then l.map fun p => if p.1 = k then (k, v) else p
  else l ++ [(k, v)]

/-- XMLConverter.journalCategories, in insertion order. -/
def journalCategories : List (String × List String) :=
  [("ACM", ["ACM", "Association for Computing Machinery", "CACM", "Communications of the ACM",
            "Commun. ACM", "Trans. ACM", "Transactions on", "SIGPLAN", "SIGCHI", "SIGGRAPH",
            "SIGSOFT", "SIGIR", "SIGKDD", "SIGMOD"]),
   ("IEEE", ["IEEE", "Institute of Electrical and Electronics Engineers", "Transactions on",
             "Journal of", "Proceedings of the IEEE", "Computer Society"]),
   ("SIAM", ["SIAM", "Society for Industrial and Applied Mathematics", "Journal on", "Review"]),
   ("AMS", ["AMS", "American Mathematical Society", "Mathematical"]),
   ("Springer", ["Springer", "Lecture Notes in Computer Science", "LNCS", "Lecture Notes in"]),
   ("Elsevier", ["Elsevier", "Science Direct", "Information Sciences", "Computer Science"]),
   ("Conference", ["Proceedings of", "Conference on", "Symposium on", "Workshop on"])]

/-- XMLConverter.publisherCategories, in insertion order. -/
def publisherCategories : List (String × List String) :=
  [("Academic", ["Academic", "Academic Press", "University"]),
   ("ACM", ["ACM", "Association for Computing Machinery"]),
   ("IEEE", ["IEEE", "Institute of Electrical and Electronics Engineers"]),
   ("Commercial", ["Wiley", "Springer", "Elsevier", "McGraw", "Addison", "Wesley"])]

/-- Category search shared by categorizeJournal and categorizePublisher:
the first category one of whose patterns occurs, lower-cased, inside the
lower-cased name wins; Other otherwise. -/
def categorizeBy (cats : List (String × List String)) (name : String) : String :=
  match cats with
  | [] => "Other"
  | (cat, pats) :: rest =>
    if pats.any (fun p => jsIncludes (lowerS name) (lowerS p)) then cat
    else categorizeBy rest name

/-- XMLConverter.categorizeJournal. -/
def categorizeJournal (journalName : String) : String :=
  categorizeBy journalCategories journalName

/-- XMLConverter.categorizePublisher. -/
def categorizePublisher (publisherName : String) : String :=
  categorizeBy publisherCategories publisherName

/-- XMLConverter.generateJournalKey: strip everything but alphanumerics and
whitespace, split on whitespace runs, lower-case, join, keep 20 characters. -/
def generateJournalKey (journalName : String) : String :=
  let stripped := String.mk (journalName.data.filter fun c => c.isAlphanum || c.isWhitespace)
  String.mk ((String.join ((jsSplitWs stripped).map lowerS)).data.take 20)

/-- XMLConverter.generatePublisherKey: same derivation, 15 characters. -/
def generatePublisherKey (publisherName : String) : String :=
  let stripped := String.mk (publisherName.data.filter fun c => c.isAlphanum || c.isWhitespace)
  String.mk ((String.join ((jsSplitWs stripped).map lowerS)).data.take 15)

/-- XMLConverter.generateAbbreviation: upper-cased first character of every
whitespace-separated word. -/
def generateAbbreviation (journalName : String) : String :=
  String.join ((jsSplitWs journalName).map fun w =>
    match w.data with
    | [] => ""
    | c :: _ => String.mk [c.toUpper])

/-- XMLConverter.addJournal: skip names already interned (a truthy key in
journalNameToKey), otherwise write the journal object under its generated
key - overwriting any previous occupant of that key - and remember the
name-to-key binding. -/
def addJournal (journalName : String) (st : XState) : XState :=
  if ((st.journalNameToKey.lookup journalName).getD "") ≠ "" then st
  else
    let key := generateJournalKey journalName
    { st with
      journals := jsSet st.journals key
        { fullName := journalName
          abbreviated := generateAbbreviation journalName
          category := categorizeJournal journalName }
      journalNameToKey := jsSet st.journalNameToKey journalName key }

/-- XMLConverter.addPublisher: intern under the generated key only when the
key is still free. -/
def addPublisher (publisherName : String) (st : XState) : XState :=
  let key := generatePublisherKey publisherName
  if (st.publishers.lookup key).isSome then st
  else
    { st with
      publishers := jsSet st.publishers key
        { name := publisherName, category := categorizePublisher publisherName } }

/-- XMLConverter.getJournalKey: the interned key of an exact observed name,
with the JS or-null coercion - an interned empty key is falsy and reads as
null. -/
def getJournalKey (st : XState) (journalName : String) : Option String :=
  match st.journalNameToKey.lookup journalName with
  | some key => if key = "" then none else some key
  | none => none

/-- XMLConverter.getPublisherKey: regenerate the key and return it when it
is interned. -/
def getPublisherKey (st : XState) (publisherName : String) : Option String :=
  let key := generatePublisherKey publisherName
  if (st.publishers.lookup key).isSome then some key else none

/-- XMLConverter.collectJournalAndPublisherInfo: intern every non-blank
journal-like and publisher-like text of every record, in document order. -/
def collectJournalAndPublisherInfo (records : List XRecord) (st : XState) : XState :=
  records.foldl
    (fun s r =>
      let s1 := r.journalNames.foldl
        (fun s2 n => if n ≠ "" ∧ wsTrim n ≠ "" then addJournal (wsTrim n) s2 else s2) s
      r.publisherNames.foldl
        (fun s2 n => if n ≠ "" ∧ wsTrim n ≠ "" then addPublisher (wsTrim n) s2 else s2) s1)
    st

/-- XMLConverter.formatFields: skip blank values, apply the BibLaTeX rename
when enabled, substitute interned journal and publisher keys when string
definitions are enabled, otherwise format the value. -/
def formatFields (cfg : XConfig) (st : XState) (fields : List (String × String)) :
    List (String × String) :=
  fields.foldl
    (fun out p =>
      let key := p.1
      let value := p.2
      if value = "" ∨ wsTrim value = "" then out
      else
        let fieldName :=
          if cfg.useBiblatexFields then
            match ([("journal", "journaltitle"), ("address", "location"),
                    ("school", "institution"), ("articleno", "number")] :
                List (String × String)).lookup key with
            | some mapped => mapped
            | none => key
          else key
        if cfg.useStringDefinitions ∧ (fieldName = "journal" ∨ fieldName = "journaltitle") then
          -- JS: if (journalKey) - null and the empty string are both falsy,
          -- so only a non-empty interned key is substituted
          let journalKey := (getJournalKey st value).getD ""
          if journalKey ≠ "" then out ++ [(fieldName, journalKey)]
          else out ++ [(fieldName, formatFieldValue value fieldName)]
        else if cfg.useStringDefinitions ∧ fieldName = "publisher" then
          -- JS: if (publisherKey) - same truthiness guard
          let publisherKey := (getPublisherKey st value).getD ""
          if publisherKey ≠ "" then out ++ [(fieldName, publisherKey)]
          else out ++ [(fieldName, formatFieldValue value fieldName)]
        else out ++ [(fieldName, formatFieldValue value fieldName)])
    []

/-- XMLConverter.generateBibtexEntry: the at-type-brace-key head, one
comma-newline field line per non-blank value, the closing brace. -/
def generateBibtexEntry (type key : String) (fields : List (String × String)) : String :=
  (fields.foldl
    (fun entry p =>
      if p.2 ≠ "" ∧ wsTrim p.2 ≠ "" then
        entry ++ ",\n  " ++ p.1 ++ " = \x7b" ++ p.2 ++ "\x7d"
      else entry)
    ("@" ++ type ++ "\x7b" ++ key)) ++ "\n\x7d"

/-- An enhancement hook standing for apiManager.enhanceReference: old field
list in, enhanced field list out (none models a converter without an
apiManager). -/
def Enhancer : Type := List (String × String) → List (String × String)

/-- JS Object.assign of an enhanced field list onto the extracted one. -/
def jsAssignList (l : List (String × String)) (enh : List (String × String)) :
    List (String × String) :=
  enh.foldl (fun acc p => jsSet acc p.1 p.2) l

/-- XMLConverter.processRecord: entry type from the map, citation key,
extracted fields, optional enhancement merge, formatting, entry text. -/
def processRecord (cfg : XConfig) (st : XState) (api : Option Enhancer)
    (r : XRecord) (index : Nat) : String :=
  let bibtexType := lookupEntryType r.refType
  let citationKey := generateCitationKey r index
  let fields := extractFields r
  let fields :=
    if cfg.enableApiEnhancement then
      match api with
      | some f => jsAssignList fields (f fields)
      | none => fields
    else fields
  let formattedFields := formatFields cfg st fields
  generateBibtexEntry bibtexType citationKey formattedFields

/-- The ordered structural path patterns of XMLConverter.convertToBibtex. -/
def possiblePaths : List String :=
  ["record", "records record", "xml records record", "EndNote records record",
   "xml database record"]

/-- A parsed XML document, abstracted as the record list each structural
path pattern locates plus the tag-structure description
describeXmlStructure would print for it. -/
structure XDoc where
  query : String → List XRecord
  structureDesc : String

/-- First pattern with at least one match wins; empty otherwise. -/
def findFirstRecords (q : String → List XRecord) : List String → List XRecord
  | [] => []
  | p :: ps => if (q p).length > 0 then q p else findFirstRecords q ps

/-- The record-location loop of XMLConverter.convertToBibtex. -/
def findRecords (doc : XDoc) : List XRecord := findFirstRecords doc.query possiblePaths

/-- The record-processing loop of XMLConverter.convertToBibtex: the progress
callback is consulted with the one-based position and the total before a
record is processed; a false return breaks the loop.  The callback is
modelled as a function of the two counters, which loses no generality for a
fixed run since the message argument is itself a function of the position. -/
def processLoop (cfg : XConfig) (st : XState) (api : Option Enhancer)
    (cb : Nat → Nat → Bool) (total : Nat) : Nat → List XRecord → List String
  | _, [] => []
  | i, r :: rs =>
    if cb (i + 1) total then
      processRecord cfg st api r i :: processLoop cfg st api cb total (i + 1) rs
    else []

/-- Render of a JS boolean inside a template literal. -/
def boolStr (b : Bool) : String := if b then "true" else "false"

/-- XMLConverter.generateStatistics (the wall-clock timestamp is passed in
as a parameter). -/
def generateStatistics (cfg : XConfig) (timestamp : String)
    (totalRecords convertedRecords errorCount : Nat) : String :=
  "% BibTeX file generated by Reference Converter\n% Generation time: " ++ timestamp ++
  "\n% Total records processed: " ++ natToDec totalRecords ++
  "\n% Successfully converted: " ++ natToDec convertedRecords ++
  "\n% Conversion errors: " ++ natToDec errorCount ++
  "\n% Configuration: String definitions=" ++ boolStr cfg.useStringDefinitions ++
  ", BibLaTeX=" ++ boolStr cfg.useBiblatexFields ++
  ", ACM style=" ++ boolStr cfg.useAcmStyle

/-- Distinct categories of a registry list, in first-occurrence order. -/
def categoriesOf {α : Type} (catOf : α → String) (l : List (String × α)) : List String :=
  l.foldl (fun acc p => if acc.contains (catOf p.2) then acc else acc ++ [catOf p.2]) []

/-- XMLConverter.generateStringDefinitions: journal definitions grouped by
category in first-occurrence order, then publisher definitions likewise. -/
def generateStringDefinitions (st : XState) : String :=
  if st.journals.length = 0 ∧ st.publishers.length = 0 then ""
  else
    let journalBlock := String.join ((categoriesOf JEntry.category st.journals).map fun cat =>
      "\n% " ++ cat ++ " Journals\n" ++
      String.join (((st.journals.filter fun p => p.2.category = cat).map fun p =>
        "@string\x7b" ++ p.1 ++ " = \"" ++ p.2.fullName ++ "\"\x7d\n")))
    let publisherBlock := String.join ((categoriesOf PEntry.category st.publishers).map fun cat =>
      "\n% " ++ cat ++ " Publishers\n" ++
      String.join (((st.publishers.filter fun p => p.2.category = cat).map fun p =>
        "@string\x7b" ++ p.1 ++ " = \"" ++ p.2.name ++ "\"\x7d\n")))
    "% String definitions for journals and publishers\n" ++ journalBlock ++ publisherBlock

/-- The result of one conversion run: the assembled output text, the entry
texts in production order, and the collected top-level errors. -/
structure ConvResult where
  output : String
  entries : List String
  errors : List String
  deriving DecidableEq, Inhabited

/-- The registry state a run starts processing with: filled by the pre-pass
when string definitions are enabled, empty otherwise. -/
def initState (cfg : XConfig) (records : List XRecord) : XState :=
  if cfg.useStringDefinitions then collectJournalAndPublisherInfo records xStateEmpty
  else xStateEmpty

/-- XMLConverter.convertToBibtex on an already-parsed document: locate
records (empty result plus one structural diagnostic when none), run the
optional string-definition pre-pass, process records under the progress
callback, then assemble string definitions, entries and the statistics
header. -/
def convertToBibtex (cfg : XConfig) (doc : XDoc) (cb : Nat → Nat → Bool)
    (api : Option Enhancer) (timestamp : String) : ConvResult :=
  let records := findRecords doc
  if records.length = 0 then
    { output := ""
      entries := []
      errors := ["No records found in XML data. XML structure: " ++ doc.structureDesc] }
  else
    let st := initState cfg records
    let bibtexEntries := processLoop cfg st api cb records.length 0 records
    let stringDefPart :=
      if cfg.useStringDefinitions then
        let stringDefs := generateStringDefinitions st
        if stringDefs ≠ "" then stringDefs ++ "\n\n" else ""
      else ""
    let body := stringDefPart ++ String.intercalate "\n\n" bibtexEntries
    let stats := generateStatistics cfg timestamp records.length bibtexEntries.length 0
    { output := stats ++ "\n\n" ++ body
      entries := bibtexEntries
      errors := [] }

/-! ## ExternalAPIManager (src/src/converter/externalApiManager.js)

The provider payloads are embedded after JSON decoding: a Semantic Scholar
candidate carries an optional title, an optional author-name list and an
optional numeric year.  JS number arithmetic of the scorer is embedded in
exact rationals. -/

/-- One Semantic Scholar search candidate. -/
structure SSResult where
  title : Option String
  authors : Option (List String)
  year : Option Int
  deriving DecidableEq, Inhabited

/-- JS parseInt in base 10: skip leading whitespace, optional sign, then
leading digits; none models NaN. -/
def jsParseInt (s : String) : Option Int :=
  let l := s.data.dropWhile Char.isWhitespace
  let signAndRest : Int × List Char :=
    match l with
    | '-' :: r => (-1, r)
    | '+' :: r => (1, r)
    | _ => (1, l)
  let ds := signAndRest.2.takeWhile Char.isDigit
  if ds.isEmpty then none
  else some (signAndRest.1 * (ds.foldl (fun a c => 10 * a + (c.toNat - 48)) 0 : Nat))

/-- ExternalAPIManager.calculateStringSimilarity: Jaccard overlap of the
whitespace-token sets of the two strings. -/
def calculateStringSimilarity (str1 str2 : String) : ℚ :=
  let set1 := (jsSplitWs str1).toFinset
  let set2 := (jsSplitWs str2).toFinset
  ((set1 ∩ set2).card : ℚ) / ((set1 ∪ set2).card : ℚ)

/-- ExternalAPIManager.calculateMatchScore: title similarity weighted 0.6,
author similarity weighted 0.3, year-within-one weighted 0.1, each factor
counted only when both sides are truthy, the sum normalized by the factor
weight total (zero when no factor applies).  A some-empty title models a
falsy title string, a year of zero is falsy, and an author array is always
truthy. -/
def calculateMatchScore (result : SSResult) (targetTitle targetAuthors targetYear : String) :
    ℚ :=
  let titlePart : ℚ × ℚ :=
    match result.title with
    | some t =>
      if t ≠ "" ∧ targetTitle ≠ "" then
        (calculateStringSimilarity (lowerS t) (lowerS targetTitle) * (6/10), 6/10)
      else (0, 0)
    | none => (0, 0)
  let authorPart : ℚ × ℚ :=
    match result.authors with
    | some names =>
      if targetAuthors ≠ "" then
        let resultAuthors := String.intercalate " " names
        (calculateStringSimilarity (lowerS resultAuthors) (lowerS targetAuthors) * (3/10), 3/10)
      else (0, 0)
    | none => (0, 0)
  let yearPart : ℚ × ℚ :=
    match result.year with
    | some y =>
      if y ≠ 0 ∧ targetYear ≠ "" then
        let yearMatch : ℚ :=
          match jsParseInt targetYear with
          | some v => if (y - v).natAbs ≤ 1 then 1 else 0
          | none => 0
        (yearMatch * (1/10), 1/10)
      else (0, 0)
    | none => (0, 0)
  let score := titlePart.1 + authorPart.1 + yearPart.1
  let factors := titlePart.2 + authorPart.2 + yearPart.2
  if factors > 0 then score / factors else 0

/-- ExternalAPIManager.findBestMatch: keep the first strictly-best-scoring
candidate, return it only when its score is strictly above 0.7. -/
def findBestMatch (results : List SSResult) (targetTitle targetAuthors targetYear : String) :
    Option SSResult :=
  let best := results.foldl
    (fun (acc : Option SSResult × ℚ) result =>
      let score := calculateMatchScore result targetTitle targetAuthors targetYear
      if score > acc.2 then (some result, score) else acc)
    (none, 0)
  if best.2 > 7/10 then best.1 else none

/-- The enhanced-field accumulator of ExternalAPIManager.enhanceReference,
iterating the provider result entries in order.  The original field set is a
total map (a missing key reads as the empty string, matching a falsy JS
read); the accumulator records which keys the merge will assign. -/
def enhanceGo (fields : String → String) : (String → Option String) →
    List (String × String) → (String → Option String)
  | enhanced, [] => enhanced
  | enhanced, (key, value) :: rest =>
    let enhanced' : String → Option String :=
      if fields key = "" ∨ wsTrim (fields key) = "" then
        fun k => if k = key then some value else enhanced k
      else if key = "doi" ∧ fields "doi" = "" then
        fun k => if k = key then some value else enhanced k
      else if key = "abstract" ∧ fields "abstract" = "" then
        fun k => if k = key then some value else enhanced k
      else if key = "note" then
        fun k => if k = key then
          some (if fields "note" ≠ "" then fields "note" ++ "; " ++ value else value)
        else enhanced k
      else enhanced
    enhanceGo fields enhanced' rest

/-- ExternalAPIManager.enhanceReference restricted to its merge stage: the
assignments it produces from one accepted provider result. -/
def enhanceReference (fields : String → String) (result : List (String × String)) :
    String → Option String :=
  enhanceGo fields (fun _ => none) result

/-- The Object.assign in XMLConverter.processRecord that lands the
enhancement on the field set. -/
def mergeEnhanced (fields : String → String) (result : List (String × String)) :
    String → String :=
  fun k => (enhanceReference fields result k).getD (fields k)

/-! ## Concrete instances used by the claim theorems -/

/-- The configuration values of the XMLConverter constructor. -/
def xDefaultConfig : XConfig :=
  { suppressWarnings := true
    extractStyledText := true
    useAcmStyle := false
    useStringDefinitions := true
    useBiblatexFields := false
    escapeLatexChars := true
    debugMode := true
    enableApiEnhancement := true }

/-- A reference element with author Smith, year 2023 and a plain title. -/
def ceSmith : CERecord :=
  { typeField := "", title := "A Study of Things", author := "John Smith",
    year := "2023", journal := "", booktitle := "", publisher := "" }

/-- The reference object the Smith record parses to. -/
def ceSmithRef : CEReference :=
  { id := "smith2023study", type := "misc", title := "A Study of Things",
    author := "John Smith", year := "2023", journal := "", publisher := "" }

/-- A record whose only populated field is the explicit type chapter. -/
def ceChapterRec : CERecord :=
  { typeField := "chapter", title := "T", author := "A", year := "",
    journal := "", booktitle := "", publisher := "" }

/-- A record typed manual with a journal present. -/
def ceManualRec : CERecord :=
  { typeField := "manual", title := "T", author := "A", year := "",
    journal := "Journal of Tests", booktitle := "", publisher := "" }

/-- An XML record with one author, a short title and a year. -/
def xRecAlpha : XRecord :=
  { (default : XRecord) with
    title := "Alpha", authors := ["Ann Bell"], year := "2001" }

/-- A second XML record, never reached in the cancelled run. -/
def xRecBeta : XRecord :=
  { (default : XRecord) with
    title := "Beta", authors := ["Bo Chen"], year := "2002" }

/-- The journal name of the string-definition example scenario. -/
def ieeeJournalName : String := "IEEE Transactions on Computers"

/-! ## Claim C1: citation-key uniqueness within a run -/

/-- Claim C1, counterexample: in ConversionEngine.generateBibTeXKey the
reference number is ignored once the key is long enough, so two records with
identical author, year and title receive the same citation key within one
run, and both entries survive the extraction. -/
theorem c1_counterexample :
    (extractReferences [ceSmith, ceSmith]).map CEReference.id =
      ["smith2023study", "smith2023study"] ∧
    (extractReferences [ceSmith, ceSmith]).length = 2 := by decide

/-- Trace of the citation key through the character sanitizer: the key of a
record at index k is the filtered base followed by the underscore-index
suffix, whose characters all survive the filter. -/
theorem generateCitationKey_data (r : XRecord) (k : Nat) :
    (generateCitationKey r k).data =
      (xKeyBase r).data.filter (fun c => c.isAlphanum || c == '_') ++
        (if k > 0 then '_' :: natDecSpec k else []) := by
  show ((xKeyBase r ++ (if k > 0 then "_" ++ natToDec k else "")).data.filter _) = _
  rw [String.data_append, List.filter_append]
  congr 1
  by_cases hk : k > 0
  · simp only [if_pos hk]
    rw [String.data_append]
    show (('_' :: (natToDec k).data).filter _) = _
    rw [natToDec_data]
    simp only [List.filter_cons]
    norm_num
    intro c hc
    have hmem := natDecSpec_digits k c hc
    simp only [decDigits, List.mem_cons, List.not_mem_nil, or_false] at hmem
    rcases hmem with rfl | rfl | rfl | rfl | rfl | rfl | rfl | rfl | rfl | rfl
    all_goals decide
  · simp [hk]

/-- Claim C1, amended: XMLConverter.generateCitationKey appends an
underscore-index suffix at every index above zero, so two records with
identical author, year and title - indeed with identical extracted fields -
always receive distinct keys at distinct indices. -/
theorem c1_amended_theorem (r : XRecord) (i j : Nat) (h : i ≠ j) :
    generateCitationKey r i ≠ generateCitationKey r j := by
  intro heq
  have hdata := congrArg String.data heq
  rw [generateCitationKey_data r i, generateCitationKey_data r j] at hdata
  have hsuffix := List.append_cancel_left hdata
  by_cases hi : i > 0 <;> by_cases hj : j > 0
  · rw [if_pos hi, if_pos hj] at hsuffix
    simp only [List.cons.injEq] at hsuffix
    exact h (natDecSpec_inj i j hsuffix.2)
  · rw [if_pos hi, if_neg hj] at hsuffix
    simp at hsuffix
  · rw [if_neg hi, if_pos hj] at hsuffix
    simp at hsuffix
  · omega

/-- Claim C1, witness: two identical records at indices 0 and 1. -/
theorem c1_witness : generateCitationKey xRecAlpha 0 ≠ generateCitationKey xRecAlpha 1 :=
  c1_amended_theorem xRecAlpha 0 1 (by decide)

/-! ## Claim C2: the title-and-author rejection gate -/

/-- Claim C2, counterexample: XMLConverter.processRecord applies no
title-and-author gate; a record with no title and no authors still yields an
entry, here a bare misc entry under the Unknown0000 key. -/
theorem c2_counterexample :
    (default : XRecord).title = "" ∧ (default : XRecord).authors = [] ∧
    processRecord xDefaultConfig xStateEmpty none (default : XRecord) 0 =
      "@misc\x7bUnknown0000\n\x7d" := by decide

/-- Claim C2, amended: in ConversionEngine, missing title and missing author
together is the only hard rejection of parseReference, and every reference
kept by extractReferences has a non-empty title or a non-empty author; the
XMLConverter applies no such gate and produces an entry for every record. -/
theorem c2_amended_theorem :
    (∀ (r : CERecord) (n : Nat),
      parseReference r n = none ↔ r.title = "" ∧ r.author = "") ∧
    (∀ (entries : List CERecord) (ref : CEReference),
      ref ∈ extractReferences entries → (ref.title ≠ "" ∨ ref.author ≠ "")) ∧
    (∀ (cfg : XConfig) (st : XState) (api : Option Enhancer) (r : XRecord) (i : Nat),
      processRecord cfg st api r i ≠ "") := by
  refine ⟨?_, ?_, ?_⟩
  · intro r n
    unfold parseReference
    by_cases hc : r.title = "" ∧ r.author = "" <;> simp [hc]
  · intro entries ref href
    simp only [extractReferences, List.mem_filterMap] at href
    obtain ⟨p, _, hparse⟩ := href
    unfold parseReference at hparse
    by_cases hc : p.2.title = "" ∧ p.2.author = ""
    · simp [hc] at hparse
    · simp only [hc, if_neg, if_false] at hparse
      rw [not_and_or] at hc
      cases hparse
      simpa using hc
  · intro cfg st api r i
    unfold processRecord generateBibtexEntry
    intro hcontra
    have := congrArg String.data hcontra
    rw [String.data_append] at this
    simp at this

/-- Claim C2, witness: the Smith record passes the gate. -/
theorem c2_witness : ceSmithRef.title ≠ "" ∨ ceSmithRef.author ≠ "" :=
  c2_amended_theorem.2.1 [ceSmith] ceSmithRef (by decide)

/-! ## Claim C4: LaTeX escaping applied exactly once -/

/-- Claim C4 (code bug): ConversionEngine.escapeLatexCharacters escapes in
one simultaneous pass, each special character gaining exactly one backslash;
XMLConverter.escapeLatex replaces sequentially, character map order, with
the backslash rule after the others, so the escape backslashes it has just
introduced are re-escaped: an ampersand comes out as a textbackslash macro
followed by a bare ampersand, and a tilde loses its macro backslash too. -/
theorem c4_theorem :
    escapeLatexCharacters "&" = "\\&" ∧
    escapeLatexCharacters "a&b%c_d\x7be\x7d" = "a\\&b\\%c\\_d\\\x7be\\\x7d" ∧
    escapeLatexCharacters "x~y" = "x\\textasciitilde\x7b\x7dy" ∧
    escapeLatex true "&" = "\\textbackslash\x7b\x7d&" ∧
    escapeLatex true "~" = "\\textbackslash\x7b\x7dtextasciitilde\x7b\x7d" := by decide

/-! ## Claim C7: entry-type derivation order -/

/-- Claim C7, counterexample: the explicit type chapter maps to inbook, not
incollection, and the explicit type manual short-circuits the heuristic even
when a journal is present. -/
theorem c7_counterexample :
    determineBibTeXType ceChapterRec = "inbook" ∧
    determineBibTeXType ceChapterRec ≠ "incollection" ∧
    determineBibTeXType ceManualRec = "manual" ∧
    determineBibTeXType ceManualRec ≠ "article" := by decide

/-- The keyword table of the amended claim, tried in order. -/
def typeKeywordTable : List (List String × String) :=
  [(["article", "journal"], "article"),
   (["book"], "book"),
   (["chapter", "inbook"], "inbook"),
   (["conference", "proceeding"], "inproceedings"),
   (["thesis", "dissertation"], "phdthesis"),
   (["report", "tech"], "techreport"),
   (["manual"], "manual"),
   (["web", "online"], "misc")]

/-- First keyword group that occurs in the lower-cased type text wins. -/
def lookupTypeKeywords (t : String) : List (List String × String) → Option String
  | [] => none
  | (kws, ty) :: rest =>
    if kws.any (fun k => jsIncludes t k) then some ty else lookupTypeKeywords t rest

/-- The entry-type derivation as the amended claim words it: a lower-cased
substring match of the explicit type field against the keyword table first,
and only when no keyword matched the journal, book-title, publisher
heuristic, in that order, with misc as the default. -/
def determineTypeSpec (r : CERecord) : String :=
  match (if r.typeField ≠ "" then lookupTypeKeywords (lowerS r.typeField) typeKeywordTable
         else none) with
  | some ty => ty
  | none =>
    if r.journal ≠ "" then "article"
    else if r.booktitle ≠ "" then "inproceedings"
    else if r.publisher ≠ "" then "book"
    else "misc"

/-- Claim C7, amended: the derivation follows the two-stage order exactly,
with chapter and inbook mapping to inbook (not incollection) and manual
recognized as an explicit type between the report and web groups. -/
theorem c7_amended_theorem (r : CERecord) : determineBibTeXType r = determineTypeSpec r := by
  unfold determineBibTeXType determineTypeSpec
  simp only [typeKeywordTable, lookupTypeKeywords, List.any_cons, List.any_nil, Bool.or_false]

/-! ## Claim C9: the IEEE journal-name scenario -/

/-- Claim C9, counterexample: the ACM pattern list is tried first and its
generic Transactions on pattern matches, so the IEEE journal is categorized
under ACM, not under IEEE. -/
theorem c9_counterexample :
    categorizeJournal ieeeJournalName = "ACM" ∧
    categorizeJournal ieeeJournalName ≠ "IEEE" := by decide

/-- Claim C9, amended: with string definitions enabled the IEEE journal is
interned under the twenty-character key, its definition is categorized under
ACM (the ACM pattern list matches first), and the formatted journal field
carries the registry key instead of the literal name. -/
theorem c9_amended_theorem :
    categorizeJournal ieeeJournalName = "ACM" ∧
    (addJournal ieeeJournalName xStateEmpty).journals =
      [("ieeetransactionsonco",
        { fullName := ieeeJournalName, abbreviated := "ITOC", category := "ACM" })] ∧
    formatFields xDefaultConfig (addJournal ieeeJournalName xStateEmpty)
        [("journal", ieeeJournalName)] =
      [("journal", "ieeetransactionsonco")] := by decide

/-! ## Claim C5: the conservative enhancement merge

Every value the converter stores in a field set - and hence every value
enhanceReference reads - has passed through the whitespace cleanup of
XMLConverter.extractTextContent (collapse whitespace runs, then trim), so a
non-empty field value is never whitespace-only.  The cleanup is embedded
below and the trim-fixedness of its output is part of the claim theorem. -/

/-- Whitespace-run collapse of XMLConverter.extractTextContent: every
maximal whitespace run becomes a single space; the flag records whether the
previous character was whitespace. -/
def collapseWsGo : Bool → List Char → List Char
  | _, [] => []
  | prevWs, c :: r =>
    if c.isWhitespace then
      if prevWs then collapseWsGo true r else ' ' :: collapseWsGo true r
    else c :: collapseWsGo false r

/-- The text cleanup of XMLConverter.extractTextContent: collapse whitespace
runs to single spaces, then trim. -/
def normalizeWs (s : String) : String := wsTrim (String.mk (collapseWsGo false s.data))

/-- Dropping a satisfied run twice is dropping it once. -/
theorem dropWhile_idem (p : Char → Bool) : ∀ l : List Char,
    (l.dropWhile p).dropWhile p = l.dropWhile p := by
  intro l
  induction l with
  | nil => rfl
  | cons c r ih =>
    by_cases h : p c
    · simp [List.dropWhile_cons, h, ih]
    · simp [List.dropWhile_cons, h]

/-- A list that dropWhile leaves unchanged starts with an unsatisfied
character, so the same holds for each of its leading runs. -/
theorem dropWhile_eq_self_of_leading (p : Char → Bool) (l m : List Char)
    (hpre : m <+: l) (hl : l.dropWhile p = l) : m.dropWhile p = m := by
  cases m with
  | nil => rfl
  | cons c r =>
    obtain ⟨t, ht⟩ := hpre
    subst ht
    by_cases h : p c
    · exfalso
      rw [List.cons_append, List.dropWhile_cons, if_pos h] at hl
      have hlen := congrArg List.length hl
      rw [List.length_cons] at hlen
      have hle : ((r ++ t).dropWhile p).length ≤ (r ++ t).length :=
        (List.dropWhile_suffix p).length_le
      omega
    · rw [List.dropWhile_cons, if_neg h]

/-- Trimming is idempotent. -/
theorem wsTrim_idem (s : String) : wsTrim (wsTrim s) = wsTrim s := by
  have hdfix : (s.data.dropWhile Char.isWhitespace).dropWhile Char.isWhitespace
      = s.data.dropWhile Char.isWhitespace := dropWhile_idem _ _
  have hefix : ((s.data.dropWhile Char.isWhitespace).reverse.dropWhile
        Char.isWhitespace).dropWhile Char.isWhitespace
      = (s.data.dropWhile Char.isWhitespace).reverse.dropWhile Char.isWhitespace :=
    dropWhile_idem _ _
  have hpre : ((s.data.dropWhile Char.isWhitespace).reverse.dropWhile
        Char.isWhitespace).reverse <+: s.data.dropWhile Char.isWhitespace := by
    have hsuf : (s.data.dropWhile Char.isWhitespace).reverse.dropWhile Char.isWhitespace
        <:+ (s.data.dropWhile Char.isWhitespace).reverse :=
      List.dropWhile_suffix Char.isWhitespace
    obtain ⟨t, ht⟩ := hsuf
    refine ⟨t.reverse, ?_⟩
    have := congrArg List.reverse ht
    simpa using this
  have hrev : (((s.data.dropWhile Char.isWhitespace).reverse.dropWhile
        Char.isWhitespace).reverse).dropWhile Char.isWhitespace
      = ((s.data.dropWhile Char.isWhitespace).reverse.dropWhile Char.isWhitespace).reverse :=
    dropWhile_eq_self_of_leading _ _ _ hpre hdfix
  show String.mk (((((wsTrim s).data).dropWhile Char.isWhitespace).reverse.dropWhile
      Char.isWhitespace).reverse) = wsTrim s
  have hdata : (wsTrim s).data =
      ((s.data.dropWhile Char.isWhitespace).reverse.dropWhile Char.isWhitespace).reverse := rfl
  rw [hdata, hrev, List.reverse_reverse, hefix, ← hdata]

/-- Every extractTextContent-normalized text is trim-fixed: trimming it
again changes nothing. -/
theorem wsTrim_normalizeWs (s : String) : wsTrim (normalizeWs s) = normalizeWs s :=
  wsTrim_idem (String.mk (collapseWsGo false s.data))

/-- A field set with a non-blank journal and note. -/
def c5WitnessFields : String → String :=
  fun k => if k = "journal" then "J" else if k = "note" then "orig" else ""

/-- The merge never assigns a key whose original value is non-blank after
trimming, apart from the note key. -/
theorem enhanceGo_keeps_nonblank (fields : String → String) (key : String)
    (hk : key ≠ "note") (ht : wsTrim (fields key) ≠ "") :
    ∀ (result : List (String × String)) (enhanced : String → Option String),
      enhanced key = none → enhanceGo fields enhanced result key = none := by
  intro result
  induction result with
  | nil => intro enhanced h; exact h
  | cons p rest ih =>
    intro enhanced h
    obtain ⟨k, v⟩ := p
    show enhanceGo fields _ rest key = none
    apply ih
    by_cases hkk : k = key
    · subst hkk
      have h1 : ¬ (fields k = "" ∨ wsTrim (fields k) = "") := by
        push_neg
        exact ⟨fun h0 => ht (by rw [h0]; rfl), ht⟩
      have h2 : ¬ (k = "doi" ∧ fields "doi" = "") := by
        rintro ⟨rfl, hd⟩
        exact h1 (Or.inl hd)
      have h3 : ¬ (k = "abstract" ∧ fields "abstract" = "") := by
        rintro ⟨rfl, hd⟩
        exact h1 (Or.inl hd)
      simp only [if_neg h1, if_neg h2, if_neg h3, if_neg hk]
      exact h
    · split_ifs <;> simp [Ne.symm hkk, h]

/-- The merge never assigns a key the provider result does not name. -/
theorem enhanceGo_frame (fields : String → String) (key : String) :
    ∀ (result : List (String × String)), (∀ v, (key, v) ∉ result) →
      ∀ (enhanced : String → Option String),
      enhanced key = none → enhanceGo fields enhanced result key = none := by
  intro result
  induction result with
  | nil => intro _ enhanced h; exact h
  | cons p rest ih =>
    intro hnot enhanced h
    obtain ⟨k, v⟩ := p
    have hkk : k ≠ key := by
      intro heqk
      exact hnot v (by rw [heqk]; exact List.mem_cons_self _ _)
    show enhanceGo fields _ rest key = none
    apply ih (fun v' hv' => hnot v' (List.mem_cons_of_mem _ hv'))
    split_ifs <;> simp [Ne.symm hkk, h]

/-- Claim C5: every extractTextContent-normalized value is trim-fixed, and
on field sets with trim-fixed values - the only field sets a conversion run
produces - the merge overwrites only fields that are empty in the original
field set: any non-empty field other than note keeps its exact original
value, a field the provider result does not name is untouched, and for the
note field the provider note is appended to a non-empty existing note,
joined with a semicolon separator, rather than replacing it. -/
theorem c5_theorem :
    (∀ s : String, wsTrim (normalizeWs s) = normalizeWs s) ∧
    (∀ (fields : String → String) (result : List (String × String)) (key : String),
      wsTrim (fields key) = fields key → key ≠ "note" → fields key ≠ "" →
      mergeEnhanced fields result key = fields key) ∧
    (∀ (fields : String → String) (result : List (String × String)) (key : String),
      (∀ v, (key, v) ∉ result) →
      mergeEnhanced fields result key = fields key) ∧
    (∀ (fields : String → String) (v : String),
      wsTrim (fields "note") = fields "note" → fields "note" ≠ "" →
      mergeEnhanced fields [("note", v)] "note" = fields "note" ++ "; " ++ v) := by
  refine ⟨wsTrim_normalizeWs, ?_, ?_, ?_⟩
  · intro fields result key htrim hk hne
    have ht : wsTrim (fields key) ≠ "" := by rw [htrim]; exact hne
    unfold mergeEnhanced enhanceReference
    rw [enhanceGo_keeps_nonblank fields key hk ht result _ rfl]
    rfl
  · intro fields result key hnot
    unfold mergeEnhanced enhanceReference
    rw [enhanceGo_frame fields key result hnot _ rfl]
    rfl
  · intro fields v htrim hne
    have ht : wsTrim (fields "note") ≠ "" := by rw [htrim]; exact hne
    have h1 : ¬ (fields "note" = "" ∨ wsTrim (fields "note") = "") := by
      push_neg
      exact ⟨hne, ht⟩
    unfold mergeEnhanced enhanceReference enhanceGo
    simp only [if_neg h1]
    rw [if_neg (by simp : ¬ (("note" : String) = "doi" ∧ fields "doi" = ""))]
    rw [if_neg (by simp : ¬ (("note" : String) = "abstract" ∧ fields "abstract" = ""))]
    simp [enhanceGo, hne]

/-- Claim C5, witness: a non-blank journal survives an overwrite attempt, an
unnamed key is untouched, and a provenance note is appended. -/
theorem c5_witness :
    mergeEnhanced c5WitnessFields [("journal", "Other J")] "journal" =
      c5WitnessFields "journal" ∧
    mergeEnhanced c5WitnessFields [("journal", "Other J")] "year" =
      c5WitnessFields "year" ∧
    mergeEnhanced c5WitnessFields [("note", "Cited by 7 (Semantic Scholar)")] "note" =
      c5WitnessFields "note" ++ "; " ++ "Cited by 7 (Semantic Scholar)" :=
  ⟨c5_theorem.2.1 c5WitnessFields _ "journal" (by decide) (by decide) (by decide),
   c5_theorem.2.2.1 c5WitnessFields _ "year" (by intro v hv; simp at hv),
   c5_theorem.2.2.2 c5WitnessFields _ (by decide) (by decide)⟩

/-! ## Claim C3: the strict 0.7 acceptance threshold -/

/-- A candidate scoring exactly 0.70: identical title, one of three author
tokens shared, year off by ten. -/
def c3Cand70 : SSResult :=
  { title := some "deep learning", authors := some ["alice"], year := some 2000 }

/-- A candidate scoring exactly 0.71: fourteen of fifteen title tokens,
one of six author tokens, year within one. -/
def c3Cand71 : SSResult :=
  { title := some "w1 w2 w3 w4 w5 w6 w7 w8 w9 w10 w11 w12 w13 w14",
    authors := some ["alice"], year := some 2020 }

/-- The target title of the 0.71 scenario, one token wider. -/
def c3Title71 : String := "w1 w2 w3 w4 w5 w6 w7 w8 w9 w10 w11 w12 w13 w14 w15"

/-- The target author list of the 0.71 scenario, six tokens. -/
def c3Authors71 : String := "alice p1 p2 p3 p4 p5"

/-- The strictly-best fold of findBestMatch never exceeds a bound that the
accumulator and every candidate score respect. -/
theorem findBestFold_le (tt ta ty : String) (c : ℚ) :
    ∀ (results : List SSResult) (acc : Option SSResult × ℚ), acc.2 ≤ c →
      (∀ res ∈ results, calculateMatchScore res tt ta ty ≤ c) →
      (results.foldl
        (fun (acc : Option SSResult × ℚ) result =>
          let score := calculateMatchScore result tt ta ty
          if score > acc.2 then (some result, score) else acc)
        acc).2 ≤ c := by
  intro results
  induction results with
  | nil => intro acc h _; simpa using h
  | cons r rest ih =>
    intro acc hacc hall
    simp only [List.foldl_cons]
    apply ih
    · by_cases hgt : calculateMatchScore r tt ta ty > acc.2
      · simp only [if_pos hgt]
        exact hall r (by simp)
      · simp only [if_neg hgt]
        exact hacc
    · intro res hres
      exact hall res (by simp [hres])

/-- Claim C3: the acceptance comparison is strictly greater-than - whenever
every candidate scores at most 0.7 (in particular when the top score is
exactly 0.70) no match is returned, the 0.70 candidate is concretely
rejected, and the 0.71 candidate is concretely accepted as top scorer. -/
theorem c3_theorem :
    (∀ (results : List SSResult) (tt ta ty : String),
      (∀ res ∈ results, calculateMatchScore res tt ta ty ≤ 7/10) →
      findBestMatch results tt ta ty = none) ∧
    calculateMatchScore c3Cand70 "deep learning" "alice bob carol" "2010" = 7/10 ∧
    findBestMatch [c3Cand70] "deep learning" "alice bob carol" "2010" = none ∧
    calculateMatchScore c3Cand71 c3Title71 c3Authors71 "2021" = 71/100 ∧
    findBestMatch [c3Cand71] c3Title71 c3Authors71 "2021" = some c3Cand71 := by
  have hsim : ∀ (s1 s2 : String) (i u : ℕ),
      ((jsSplitWs s1).toFinset ∩ (jsSplitWs s2).toFinset).card = i →
      ((jsSplitWs s1).toFinset ∪ (jsSplitWs s2).toFinset).card = u →
      calculateStringSimilarity s1 s2 = (i : ℚ) / (u : ℚ) := by
    intro s1 s2 i u hi hu
    unfold calculateStringSimilarity
    simp only []
    rw [hi, hu]
  have hT70 : calculateStringSimilarity (lowerS "deep learning") (lowerS "deep learning")
      = 1 := by
    rw [hsim _ _ 2 2 (by decide) (by decide)]
    norm_num
  have hA70 : calculateStringSimilarity (lowerS (String.intercalate " " ["alice"]))
      (lowerS "alice bob carol") = 1/3 := by
    rw [hsim _ _ 1 3 (by decide) (by decide)]
    norm_num
  have h70 : calculateMatchScore c3Cand70 "deep learning" "alice bob carol" "2010" = 7/10 := by
    unfold calculateMatchScore
    simp only [c3Cand70]
    rw [show jsParseInt "2010" = some (2010 : Int) by decide]
    simp +decide only []
    rw [hT70, hA70]
    norm_num
  have hT71 : calculateStringSimilarity (lowerS "w1 w2 w3 w4 w5 w6 w7 w8 w9 w10 w11 w12 w13 w14")
      (lowerS c3Title71) = 14/15 := by
    rw [hsim _ _ 14 15 (by decide) (by decide)]
    norm_num
  have hA71 : calculateStringSimilarity (lowerS (String.intercalate " " ["alice"]))
      (lowerS c3Authors71) = 1/6 := by
    rw [hsim _ _ 1 6 (by decide) (by decide)]
    norm_num
  have h71 : calculateMatchScore c3Cand71 c3Title71 c3Authors71 "2021" = 71/100 := by
    unfold calculateMatchScore
    simp only [c3Cand71]
    rw [show jsParseInt "2021" = some (2021 : Int) by decide]
    simp +decide only []
    rw [hT71, hA71]
    norm_num
  have hthreshold : ∀ (results : List SSResult) (tt ta ty : String),
      (∀ res ∈ results, calculateMatchScore res tt ta ty ≤ 7/10) →
      findBestMatch results tt ta ty = none := by
    intro results tt ta ty hall
    unfold findBestMatch
    simp only []
    rw [if_neg (not_lt.mpr (findBestFold_le tt ta ty (7/10) results (none, 0)
      (by norm_num) hall))]
  refine ⟨hthreshold, h70, ?_, h71, ?_⟩
  · apply hthreshold
    intro res hres
    simp only [List.mem_singleton] at hres
    rw [hres, h70]
  · unfold findBestMatch
    simp only [List.foldl_cons, List.foldl_nil]
    rw [h71]
    rw [if_pos (by norm_num : (71/100 : ℚ) > 0)]
    rw [if_pos (by norm_num : (71/100 : ℚ) > 7/10)]

/-- Claim C3, witness: the threshold clause applied to the concrete
0.70-scoring candidate list. -/
theorem c3_witness : findBestMatch [c3Cand70] "deep learning" "alice bob carol" "2010" = none :=
  c3_theorem.1 [c3Cand70] "deep learning" "alice bob carol" "2010" (by
    intro res hres
    simp only [List.mem_singleton] at hres
    rw [hres, c3_theorem.2.1])

/-! ## Claim C6: record location and the zero-record failure mode -/

/-- The locator loop returns exactly the matches of the first pattern with a
non-empty match list. -/
theorem findFirstRecords_eq (q : String → List XRecord) :
    ∀ paths : List String,
      findFirstRecords q paths = ((paths.find? fun p => !(q p).isEmpty).map q).getD [] := by
  intro paths
  induction paths with
  | nil => rfl
  | cons p ps ih =>
    unfold findFirstRecords
    by_cases h : (q p).length > 0
    · rw [if_pos h]
      have hb : (q p).isEmpty = false := by
        rcases hqp : q p with _ | ⟨a, as⟩
        · rw [hqp] at h; simp at h
        · rfl
      simp [List.find?, hb]
    · rw [if_neg h]
      have hb : (q p).isEmpty = true := by
        rcases hqp : q p with _ | ⟨a, as⟩
        · rfl
        · rw [hqp] at h; simp at h
      simp only [List.find?, hb, Bool.not_true]
      exact ih

/-- Claim C6: the locator tries the fixed pattern list in order and returns
exactly the matches of the first pattern with at least one match, never
merging across patterns; when every pattern misses, the run is not aborted -
the conversion returns an empty output with a single structural diagnostic
as its only error.  The two-stage ConversionEngine locator behaves the same
way with its warning. -/
theorem c6_theorem :
    (∀ doc : XDoc,
      findRecords doc =
        ((possiblePaths.find? fun p => !(doc.query p).isEmpty).map doc.query).getD []) ∧
    (∀ (cfg : XConfig) (doc : XDoc) (cb : Nat → Nat → Bool) (api : Option Enhancer)
        (ts : String), (∀ p ∈ possiblePaths, doc.query p = []) →
      (convertToBibtex cfg doc cb api ts).output = "" ∧
      (convertToBibtex cfg doc cb api ts).entries = [] ∧
      (convertToBibtex cfg doc cb api ts).errors =
        ["No records found in XML data. XML structure: " ++ doc.structureDesc]) ∧
    (∀ q : String → List CERecord,
      (q "record, reference, citation, item" ≠ [] →
        ceLocate q = (q "record, reference, citation, item", [])) ∧
      (q "record, reference, citation, item" = [] →
        q "*[title], *[author], *[journal]" ≠ [] →
        ceLocate q = (q "*[title], *[author], *[journal]", [])) ∧
      (q "record, reference, citation, item" = [] →
        q "*[title], *[author], *[journal]" = [] →
        ceLocate q = ([], ["No recognizable reference entries found in XML"]))) := by
  refine ⟨?_, ?_, ?_⟩
  · intro doc
    exact findFirstRecords_eq doc.query possiblePaths
  · intro cfg doc cb api ts hall
    have h1 := hall "record" (by simp [possiblePaths])
    have h2 := hall "records record" (by simp [possiblePaths])
    have h3 := hall "xml records record" (by simp [possiblePaths])
    have h4 := hall "EndNote records record" (by simp [possiblePaths])
    have h5 := hall "xml database record" (by simp [possiblePaths])
    have hrec : findRecords doc = [] := by
      simp [findRecords, possiblePaths, findFirstRecords, h1, h2, h3, h4, h5]
    unfold convertToBibtex
    rw [hrec]
    exact ⟨rfl, rfl, rfl⟩
  · intro q
    refine ⟨?_, ?_, ?_⟩
    · intro h1
      unfold ceLocate
      rw [if_pos (List.length_pos.mpr h1)]
    · intro h1 h2
      unfold ceLocate
      rw [if_neg (by simp [h1]), if_pos (List.length_pos.mpr h2)]
    · intro h1 h2
      unfold ceLocate
      rw [if_neg (by simp [h1]), if_neg (by simp [h2])]

/-- A document no structural pattern matches. -/
def c6DocEmpty : XDoc := { query := fun _ => [], structureDesc := "xml[body[junk]]" }

/-- Claim C6, witness: the zero-record run on a patternless document. -/
theorem c6_witness :
    (convertToBibtex xDefaultConfig c6DocEmpty (fun _ _ => true) none "T").output = "" ∧
    (convertToBibtex xDefaultConfig c6DocEmpty (fun _ _ => true) none "T").entries = [] ∧
    (convertToBibtex xDefaultConfig c6DocEmpty (fun _ _ => true) none "T").errors =
      ["No records found in XML data. XML structure: " ++ c6DocEmpty.structureDesc] :=
  c6_theorem.2.1 xDefaultConfig c6DocEmpty (fun _ _ => true) none "T" (fun _ _ => rfl)

/-! ## Claim C8: cancellation through the progress callback -/

/-- The processing loop produces exactly the entries of the longest record
prefix on which the callback keeps returning true. -/
theorem processLoop_eq (cfg : XConfig) (st : XState) (api : Option Enhancer)
    (cb : Nat → Nat → Bool) (total : Nat) :
    ∀ (l : List XRecord) (i : Nat),
      processLoop cfg st api cb total i l =
        ((List.enumFrom i l).takeWhile fun p => cb (p.1 + 1) total).map
          fun p => processRecord cfg st api p.2 p.1 := by
  intro l
  induction l with
  | nil => intro i; rfl
  | cons r rs ih =>
    intro i
    show (if cb (i + 1) total then
        processRecord cfg st api r i :: processLoop cfg st api cb total (i + 1) rs
      else []) = _
    rw [show List.enumFrom i (r :: rs) = (i, r) :: List.enumFrom (i + 1) rs from rfl]
    by_cases hcb : cb (i + 1) total
    · rw [if_pos hcb, List.takeWhile_cons_of_pos (by simpa using hcb)]
      simp only [List.map_cons]
      rw [ih (i + 1)]
    · rw [if_neg hcb, List.takeWhile_cons_of_neg (by simpa using hcb)]
      rfl

/-- Claim C8, amended: when the callback returns false at the invocation for
record i, no record at or after position i is dispatched and the result
keeps exactly the entries of the records before it - no rollback - but the
returned result carries no cancellation note; the cancellation is only
logged. -/
theorem c8_amended_theorem (cfg : XConfig) (doc : XDoc) (cb : Nat → Nat → Bool)
    (api : Option Enhancer) (ts : String) :
    (convertToBibtex cfg doc cb api ts).entries =
      ((findRecords doc).enum.takeWhile
          fun p => cb (p.1 + 1) (findRecords doc).length).map
        fun p => processRecord cfg (initState cfg (findRecords doc)) api p.2 p.1 := by
  unfold convertToBibtex
  by_cases h : (findRecords doc).length = 0
  · rw [if_pos h]
    rw [List.length_eq_zero.mp h]
    rfl
  · rw [if_neg h]
    exact processLoop_eq cfg (initState cfg (findRecords doc)) api cb
      (findRecords doc).length (findRecords doc) 0

/-- The configuration of the cancelled concrete run. -/
def c8Config : XConfig :=
  { suppressWarnings := true, extractStyledText := true, useAcmStyle := false,
    useStringDefinitions := false, useBiblatexFields := false, escapeLatexChars := true,
    debugMode := true, enableApiEnhancement := false }

/-- A document whose record pattern matches two records. -/
def c8Doc : XDoc :=
  { query := fun p => if p = "record" then [xRecAlpha, xRecBeta] else [],
    structureDesc := "xml[records]" }

/-- A run whose callback cancels at the second record. -/
def c8Run : ConvResult :=
  convertToBibtex c8Config c8Doc (fun current _ => current == 1) none
    "2025-01-01T00:00:00.000Z"

set_option maxRecDepth 4000 in
/-- Claim C8, counterexample: the cancelled run keeps the one entry produced
before the cancellation, but its returned output contains no cancellation
note (no occurrence of cancel in any letter case) - the cancellation notice
goes to the logger only. -/
theorem c8_counterexample :
    c8Run.entries =
      ["@misc\x7bBell2001Alpha,\n  title = \x7b\x7bAlpha\x7d\x7d,\n  author = \x7bAnn Bell\x7d,\n  year = \x7b2001\x7d\n\x7d"] ∧
    hasSub "cancel".data (lowerS c8Run.output).data = false := by decide

/-! ## Claim C10: registry key truncation and collision overwrite -/

/-- A journal name with no alphanumeric characters: its key is empty. -/
def hashName : String := "#"

/-- A second such name, distinct from the first. -/
def dollarName : String := "$"

/-- Claim C10, counterexample: two distinct names whose keys truncate to the
empty string collide, and the later one does overwrite the registry slot,
but neither name resolves (the empty key is falsy, so getJournalKey coerces
it to null) and neither entry is rewritten - the field keeps the literal
name, against the claim that entries for both names are rewritten to the
shared key. -/
theorem c10_counterexample :
    hashName ≠ dollarName ∧
    generateJournalKey hashName = "" ∧
    generateJournalKey dollarName = "" ∧
    (addJournal dollarName (addJournal hashName xStateEmpty)).journals =
      [("", { fullName := dollarName, abbreviated := "$", category := "Other" })] ∧
    getJournalKey (addJournal dollarName (addJournal hashName xStateEmpty)) hashName
      = none ∧
    formatFields xDefaultConfig (addJournal dollarName (addJournal hashName xStateEmpty))
      [("journal", hashName)] = [("journal", hashName)] := by decide

/-- Claim C10, amended: journal keys are the lower-cased alphanumeric
residue truncated to twenty characters (fifteen for publishers); when two
distinct names collide on the same non-empty key, the registry holds one
definition under that key, the later name overwrites the journal entry - so
the emitted string definition carries the most recently observed name -
while both observed names keep resolving to the shared key and both entries
are rewritten to reference it.  Names whose key truncates to the empty
string are excepted: the empty key is falsy, so such names never resolve and
their entries keep the literal name. -/
theorem c10_theorem (n1 n2 : String) (hne : n1 ≠ n2)
    (hkey : generateJournalKey n2 = generateJournalKey n1)
    (hkne : generateJournalKey n1 ≠ "")
    (ht1 : wsTrim n1 ≠ "") (ht2 : wsTrim n2 ≠ "") :
    (∀ s : String, (generateJournalKey s).length ≤ 20 ∧
      (generatePublisherKey s).length ≤ 15) ∧
    (addJournal n2 (addJournal n1 xStateEmpty)).journals =
      [(generateJournalKey n1,
        { fullName := n2, abbreviated := generateAbbreviation n2,
          category := categorizeJournal n2 })] ∧
    getJournalKey (addJournal n2 (addJournal n1 xStateEmpty)) n1 =
      some (generateJournalKey n1) ∧
    getJournalKey (addJournal n2 (addJournal n1 xStateEmpty)) n2 =
      some (generateJournalKey n1) ∧
    formatFields xDefaultConfig (addJournal n2 (addJournal n1 xStateEmpty))
      [("journal", n1)] = [("journal", generateJournalKey n1)] ∧
    formatFields xDefaultConfig (addJournal n2 (addJournal n1 xStateEmpty))
      [("journal", n2)] = [("journal", generateJournalKey n1)] := by
  have hn1 : n1 ≠ "" := fun h => ht1 (by rw [h]; rfl)
  have hn2 : n2 ≠ "" := fun h => ht2 (by rw [h]; rfl)
  have hs1 : addJournal n1 xStateEmpty =
      { journals := [(generateJournalKey n1,
          { fullName := n1, abbreviated := generateAbbreviation n1,
            category := categorizeJournal n1 })],
        publishers := [],
        journalNameToKey := [(n1, generateJournalKey n1)] } := by
    unfold addJournal xStateEmpty jsSet
    simp [List.lookup]
  have hbeq : (n2 == n1) = false := by
    simp only [beq_eq_false_iff_ne, ne_eq]
    exact Ne.symm hne
  have hs2 : addJournal n2 (addJournal n1 xStateEmpty) =
      { journals := [(generateJournalKey n1,
          { fullName := n2, abbreviated := generateAbbreviation n2,
            category := categorizeJournal n2 })],
        publishers := [],
        journalNameToKey := [(n1, generateJournalKey n1), (n2, generateJournalKey n1)] } := by
    rw [hs1]
    unfold addJournal jsSet
    rw [hkey]
    simp [List.lookup, hbeq, hne]
  have hget1 : getJournalKey (addJournal n2 (addJournal n1 xStateEmpty)) n1 =
      some (generateJournalKey n1) := by
    rw [hs2]
    unfold getJournalKey
    simp [List.lookup, hkne]
  have hget2 : getJournalKey (addJournal n2 (addJournal n1 xStateEmpty)) n2 =
      some (generateJournalKey n1) := by
    rw [hs2]
    unfold getJournalKey
    simp [List.lookup, hbeq, hkne]
  refine ⟨?_, ?_, hget1, hget2, ?_, ?_⟩
  · intro s
    constructor
    · show (List.take 20 _).length ≤ 20
      simp [List.length_take]
    · show (List.take 15 _).length ≤ 15
      simp [List.length_take]
  · rw [hs2]
  · unfold formatFields
    simp only [List.foldl_cons, List.foldl_nil]
    rw [if_neg (by push_neg; exact ⟨hn1, ht1⟩)]
    rw [hget1]
    simp [xDefaultConfig, hkne]
  · unfold formatFields
    simp only [List.foldl_cons, List.foldl_nil]
    rw [if_neg (by push_neg; exact ⟨hn2, ht2⟩)]
    rw [hget2]
    simp [xDefaultConfig, hkne]

/-- The second journal name of the collision scenario: it truncates to the
same twenty-character key as ieeeJournalName. -/
def ieeeCommName : String := "IEEE Transactions on Communications"

/-- Claim C10, witness: two IEEE Transactions titles that truncate to the
same non-empty twenty-character key. -/
theorem c10_witness :
    (addJournal ieeeCommName (addJournal ieeeJournalName xStateEmpty)).journals =
      [(generateJournalKey ieeeJournalName,
        { fullName := ieeeCommName,
          abbreviated := generateAbbreviation ieeeCommName,
          category := categorizeJournal ieeeCommName })] ∧
    getJournalKey (addJournal ieeeCommName (addJournal ieeeJournalName xStateEmpty))
      ieeeJournalName = some (generateJournalKey ieeeJournalName) ∧
    formatFields xDefaultConfig (addJournal ieeeCommName (addJournal ieeeJournalName xStateEmpty))
      [("journal", ieeeCommName)] = [("journal", generateJournalKey ieeeJournalName)] :=
  ⟨(c10_theorem ieeeJournalName ieeeCommName
      (by decide) (by decide) (by decide) (by decide) (by decide)).2.1,
   (c10_theorem ieeeJournalName ieeeCommName
      (by decide) (by decide) (by decide) (by decide) (by decide)).2.2.1,
   (c10_theorem ieeeJournalName ieeeCommName
      (by decide) (by decide) (by decide) (by decide) (by decide)).2.2.2.2.2⟩

end RefConv
